import Mathlib

set_option autoImplicit false

/-!
Verification of the shardjs pipeline: a shallow embedding of the lexer
(src/lexer.c), recursive-descent parser (src/parser.c), AST (src/ast.c,
src/include/runtime.h), environment (src/env.c) and tree-walking
evaluator (src/interpreter.c), followed by theorems settling the
specification claims.  Numeric values are modelled as rationals: every
arithmetic step exercised by the claims is exact, so the IEEE-754
rounding of the C doubles never separates the two models on the inputs
at issue.  Out-of-memory branches of the C code are unreachable in the
embedding and are dropped.
-/

/-! ## Character classification (ctype.h, C locale) -/

def isspaceC (c : Char) : Bool :=
  c = ' ' || c = '\t' || c = '\n' || c = '\x0b' || c = '\x0c' || c = '\r'

def isdigitC (c : Char) : Bool := '0' ≤ c && c ≤ '9'

def isalphaC (c : Char) : Bool := ('a' ≤ c && c ≤ 'z') || ('A' ≤ c && c ≤ 'Z')

def isalnumC (c : Char) : Bool := isalphaC c || isdigitC c

/-! ## Token model (src/include/token.h) -/

inductive TokenType where
  | NUMBER | IDENTIFIER | LET | IF | ELSE | ASSIGN
  | PLUS | MINUS | MULTIPLY | DIVIDE
  | LPAREN | RPAREN | SEMICOLON
  | GREATER | LESS | GREATER_EQUAL | LESS_EQUAL | EQUAL | NOT_EQUAL
  | EOF | ERROR
deriving DecidableEq, Repr

structure Token where
  type : TokenType
  number : ℚ
  text : Option String
  line : Nat
  column : Nat
deriving DecidableEq, Repr

def createToken (t : TokenType) (line column : Nat) : Token :=
  { type := t, number := 0, text := Option.none, line := line, column := column }

def createNumberToken (value : ℚ) (line column : Nat) : Token :=
  { createToken TokenType.NUMBER line column with number := value }

def createTextToken (t : TokenType) (text : String) (line column : Nat) : Token :=
  { createToken t line column with text := Option.some text }

/-! ## Lexer state (src/lexer.c)

The C struct caches `current_char`; the cache always equals
`source[position]` (or the terminator once `position` reaches the end),
so the embedding derives it from `position` instead of storing it. -/

structure Lexer where
  source : List Char
  position : Nat
  line : Nat
  column : Nat
deriving DecidableEq, Repr

def Lexer.currentChar (l : Lexer) : Char :=
  if h : l.position < l.source.length then l.source.get ⟨l.position, h⟩ else '\x00'

def lexerCreate (source : String) : Lexer :=
  { source := source.toList, position := 0, line := 1, column := 1 }

def lexerAdvance (l : Lexer) : Lexer :=
  if l.position < l.source.length then
    let l' :=
      if l.currentChar = '\n' then { l with line := l.line + 1, column := 1 }
      else { l with column := l.column + 1 }
    { l' with position := l.position + 1 }
  else l

def lexerPeek (l : Lexer) : Char :=
  if h : l.position + 1 < l.source.length then l.source.get ⟨l.position + 1, h⟩ else '\x00'

/-- The whitespace loop of `lexer_skip_whitespace`, run on a step budget.
Each iteration of the C loop strictly increases `position` (the guard
implies `position < length`), so a budget of `length - position` steps
reproduces the loop exactly. -/
def skipWS : Nat → Lexer → Lexer
  | 0, l => l
  | n + 1, l =>
    if l.currentChar ≠ '\x00' && isspaceC l.currentChar then skipWS n (lexerAdvance l) else l

def lexerSkipWhitespace (l : Lexer) : Lexer :=
  skipWS (l.source.length - l.position) l

/-- The digit-run loop shared by both halves of `lexer_read_number`
(and the shape of `lexer_read_identifier`).  The C guard is
`pos < 63` on the buffer index; the budget argument carries
`63 - buf.length`, so the loop stops exactly when the buffer holds 63
characters. -/
def readDigits : Nat → Lexer → List Char → List Char × Lexer
  | 0, l, buf => (buf, l)
  | n + 1, l, buf =>
    if l.currentChar ≠ '\x00' && isdigitC l.currentChar then
      readDigits n (lexerAdvance l) (buf ++ [l.currentChar])
    else (buf, l)

def readIdentChars : Nat → Lexer → List Char → List Char × Lexer
  | 0, l, buf => (buf, l)
  | n + 1, l, buf =>
    if l.currentChar ≠ '\x00' && (isalnumC l.currentChar || l.currentChar = '_') then
      readIdentChars n (lexerAdvance l) (buf ++ [l.currentChar])
    else (buf, l)

/-- Value of a digit buffer, the exact-rational counterpart of `atof`
on the buffers the lexer produces (digits, optionally one dot). -/
def digitsVal : List Char → Nat → Nat
  | [], acc => acc
  | c :: cs, acc => digitsVal cs (10 * acc + (c.toNat - 48))

def atofQ (buf : List Char) : ℚ :=
  let intPart := buf.takeWhile (fun c => c ≠ '.')
  let fracPart := (buf.dropWhile (fun c => c ≠ '.')).drop 1
  (digitsVal intPart 0 : ℚ) + (digitsVal fracPart 0 : ℚ) / ((10 : ℚ) ^ fracPart.length)

def lexerReadNumber (l : Lexer) : Token × Lexer :=
  let startLine := l.line
  let startColumn := l.column
  let r1 := readDigits 63 l []
  let r2 :=
    if r1.2.currentChar = '.' && isdigitC (lexerPeek r1.2) then
      let bufd := r1.1 ++ ['.']
      readDigits (63 - bufd.length) (lexerAdvance r1.2) bufd
    else r1
  (createNumberToken (atofQ r2.1) startLine startColumn, r2.2)

def lexerReadIdentifier (l : Lexer) : Token × Lexer :=
  let startLine := l.line
  let startColumn := l.column
  let r := readIdentChars 63 l []
  if String.mk r.1 = "let" then (createToken TokenType.LET startLine startColumn, r.2)
  else (createTextToken TokenType.IDENTIFIER (String.mk r.1) startLine startColumn, r.2)

def lexerNextToken (l0 : Lexer) : Token × Lexer :=
  let l := lexerSkipWhitespace l0
  if l.currentChar = '\x00' then (createToken TokenType.EOF l.line l.column, l)
  else
    let currentLine := l.line
    let currentColumn := l.column
    if isdigitC l.currentChar then lexerReadNumber l
    else if isalphaC l.currentChar || l.currentChar = '_' then lexerReadIdentifier l
    else
      let ch := l.currentChar
      let l := lexerAdvance l
      if ch = '+' then (createToken TokenType.PLUS currentLine currentColumn, l)
      else if ch = '-' then (createToken TokenType.MINUS currentLine currentColumn, l)
      else if ch = '*' then (createToken TokenType.MULTIPLY currentLine currentColumn, l)
      else if ch = '/' then (createToken TokenType.DIVIDE currentLine currentColumn, l)
      else if ch = '=' then
        if l.currentChar = '=' then (createToken TokenType.EQUAL currentLine currentColumn, lexerAdvance l)
        else (createToken TokenType.ASSIGN currentLine currentColumn, l)
      else if ch = '>' then
        if l.currentChar = '=' then (createToken TokenType.GREATER_EQUAL currentLine currentColumn, lexerAdvance l)
        else (createToken TokenType.GREATER currentLine currentColumn, l)
      else if ch = '<' then
        if l.currentChar = '=' then (createToken TokenType.LESS_EQUAL currentLine currentColumn, lexerAdvance l)
        else (createToken TokenType.LESS currentLine currentColumn, l)
      else if ch = '!' then
        if l.currentChar = '=' then (createToken TokenType.NOT_EQUAL currentLine currentColumn, lexerAdvance l)
        else (createToken TokenType.ERROR currentLine currentColumn, l)
      else if ch = '(' then (createToken TokenType.LPAREN currentLine currentColumn, l)
      else if ch = ')' then (createToken TokenType.RPAREN currentLine currentColumn, l)
      else if ch = ';' then (createToken TokenType.SEMICOLON currentLine currentColumn, l)
      else (createToken TokenType.ERROR currentLine currentColumn, l)

/-! ## AST (src/include/runtime.h, src/ast.c)

`AST_IF_STMT` is declared in the node-type enum of runtime.h (its
constructor `ast_create_if_stmt` is declared but nowhere defined under
src/), so the variant exists in the data model even though no code in
src/ ever builds or walks it.  The statement list and the optional else
branch are mutual inductives so that the evaluator is structurally
recursive. -/

mutual
inductive ASTNode where
  | Number (value : ℚ)
  | Identifier (name : String)
  | BinaryOp (left : ASTNode) (op : Char) (right : ASTNode)
  | LetDecl (name : String) (value : ASTNode)
  | PrintCall (arg : ASTNode)
  | Program (stmts : ASTList)
  | IfStmt (condition : ASTNode) (ifBranch : ASTNode) (elseBranch : ASTOpt)

inductive ASTList where
  | nil
  | cons (head : ASTNode) (tail : ASTList)

inductive ASTOpt where
  | none
  | some (node : ASTNode)
end

/-- `ast_program_add_statement`: append one statement at the end. -/
def ASTList.snoc : ASTList → ASTNode → ASTList
  | ASTList.nil, n => ASTList.cons n ASTList.nil
  | ASTList.cons h t, n => ASTList.cons h (t.snoc n)

/-! ## Environment (src/env.c)

The backing store is an ordered sequence of name-value pairs; `env_set`
scans for the first matching name and updates it in place, otherwise
appends a copy at the end (capacity growth is a no-op here); `env_get`
is the same linear scan. -/

abbrev Env := List (String × ℚ)

def envSet : Env → String → ℚ → Env
  | [], name, value => [(name, value)]
  | (n, w) :: rest, name, value =>
    if n = name then (n, value) :: rest else (n, w) :: envSet rest name value

def envGet : Env → String → Option ℚ
  | [], _ => Option.none
  | (n, w) :: rest, name => if n = name then Option.some w else envGet rest name

/-! ## Evaluator (src/interpreter.c)

The process-wide `interpreter_error` / `interpreter_error_msg` pair is
threaded as an explicit state; `printf` output is collected as the list
of printed values.  `interpret` returns
(result, environment, error state, output of this call). -/

structure ErrSt where
  hasError : Bool
  msg : String
deriving DecidableEq, Repr

def clearErr : ErrSt := { hasError := false, msg := "" }

def setErr (message : String) : ErrSt := { hasError := true, msg := message }

abbrev EvalRes := ℚ × Env × ErrSt × List ℚ

mutual
/-- `interpret` from src/interpreter.c.  The body begins with
`interpreter_clear_error()`, so the incoming state `st` is discarded. -/
def interpret (node : ASTNode) (env : Env) (st : ErrSt) : EvalRes :=
  let st0 := clearErr
  match node with
  | ASTNode.Number v => (v, env, st0, [])
  | ASTNode.Identifier name =>
    match envGet env name with
    | Option.some v => (v, env, st0, [])
    | Option.none => (0, env, setErr ("Undefined variable: " ++ name), [])
  | ASTNode.BinaryOp l op r =>
    match interpret l env st0 with
    | (leftVal, env1, st1, out1) =>
      if st1.hasError then (0, env1, st1, out1)
      else
        match interpret r env1 st1 with
        | (rightVal, env2, st2, out2) =>
          if st2.hasError then (0, env2, st2, out1 ++ out2)
          else if op = '+' then (leftVal + rightVal, env2, st2, out1 ++ out2)
          else if op = '-' then (leftVal - rightVal, env2, st2, out1 ++ out2)
          else if op = '*' then (leftVal * rightVal, env2, st2, out1 ++ out2)
          else if op = '/' then
            if rightVal = 0 then (0, env2, setErr "Division by zero", out1 ++ out2)
            else (leftVal / rightVal, env2, st2, out1 ++ out2)
          else (0, env2, setErr ("Unknown binary operator: " ++ op.toString), out1 ++ out2)
  | ASTNode.LetDecl name value =>
    match interpret value env st0 with
    | (v, env1, st1, out1) =>
      if st1.hasError then (0, env1, st1, out1)
      else (v, envSet env1 name v, st1, out1)
  | ASTNode.PrintCall arg =>
    match interpret arg env st0 with
    | (v, env1, st1, out1) =>
      if st1.hasError then (0, env1, st1, out1)
      else (v, env1, st1, out1 ++ [v])
  | ASTNode.Program stmts => interpGo stmts env st0 0
  | ASTNode.IfStmt _ _ _ =>
    (0, env, setErr "Unsupported AST node type in interpreter core", [])

/-- The statement loop of the `AST_PROGRAM` case: `last` is
`last_result`, initially 0. -/
def interpGo (stmts : ASTList) (env : Env) (st : ErrSt) (last : ℚ) : EvalRes :=
  match stmts with
  | ASTList.nil => (last, env, st, [])
  | ASTList.cons s rest =>
    match interpret s env st with
    | (v, env1, st1, out1) =>
      if st1.hasError then (0, env1, st1, out1)
      else
        match interpGo rest env1 st1 v with
        | (w, env2, st2, out2) => (w, env2, st2, out1 ++ out2)
end

/-! ## Parser (src/parser.c)

Recursive descent over a two-token lookahead buffer.  The termination
of the C parser rests on token consumption; the embedding threads an
explicit step budget `fuel` through the mutually recursive productions,
with budget exhaustion returning the same failure shape as a failed
production.  Every claim about concrete sources is evaluated at a
budget large enough that exhaustion is unreachable, and every universal
claim below holds for all budgets. -/

structure Parser where
  lexer : Lexer
  currentToken : Token
  lookaheadToken : Token
  hasError : Bool
  errorMessage : String
deriving DecidableEq, Repr

def parserCreate (lx : Lexer) : Parser :=
  let r1 := lexerNextToken lx
  let r2 := lexerNextToken r1.2
  { lexer := r2.2, currentToken := r1.1, lookaheadToken := r2.1,
    hasError := false, errorMessage := "" }

def parserAdvance (p : Parser) : Parser :=
  let r := lexerNextToken p.lexer
  { p with currentToken := p.lookaheadToken, lookaheadToken := r.1, lexer := r.2 }

def parserMatch (p : Parser) (t : TokenType) : Bool :=
  p.currentToken.type = t

def parserError (p : Parser) (message : String) : Parser :=
  { p with
    hasError := true,
    errorMessage := "Parse error at line " ++ toString p.currentToken.line ++
      ", column " ++ toString p.currentToken.column ++ ": " ++ message }

def parserConsume (p : Parser) (t : TokenType) (errorMsg : String) : Bool × Parser :=
  if parserMatch p t then (true, parserAdvance p) else (false, parserError p errorMsg)

mutual
/-- `parse_expression`: + and -, lowest precedence. -/
def parseExpression (fuel : Nat) (p : Parser) : Option ASTNode × Parser :=
  if p.hasError then (Option.none, p)
  else
    match fuel with
    | 0 => (Option.none, p)
    | fuel + 1 =>
      match parseTerm fuel p with
      | (Option.none, p) => (Option.none, p)
      | (Option.some left, p) =>
        if p.hasError then (Option.some left, p)
        else parseExpressionOps fuel p left

/-- The while loop of `parse_expression`. -/
def parseExpressionOps (fuel : Nat) (p : Parser) (left : ASTNode) : Option ASTNode × Parser :=
  match fuel with
  | 0 => (Option.none, p)
  | fuel + 1 =>
    if parserMatch p TokenType.PLUS || parserMatch p TokenType.MINUS then
      let opc : Char := if p.currentToken.type = TokenType.PLUS then '+' else '-'
      match parseTerm fuel (parserAdvance p) with
      | (Option.none, p) => (Option.none, p)
      | (Option.some right, p) =>
        if p.hasError then (Option.none, p)
        else parseExpressionOps fuel p (ASTNode.BinaryOp left opc right)
    else (Option.some left, p)

/-- `parse_term`: * and /, higher precedence. -/
def parseTerm (fuel : Nat) (p : Parser) : Option ASTNode × Parser :=
  if p.hasError then (Option.none, p)
  else
    match fuel with
    | 0 => (Option.none, p)
    | fuel + 1 =>
      match parseFactor fuel p with
      | (Option.none, p) => (Option.none, p)
      | (Option.some left, p) =>
        if p.hasError then (Option.some left, p)
        else parseTermOps fuel p left

/-- The while loop of `parse_term`. -/
def parseTermOps (fuel : Nat) (p : Parser) (left : ASTNode) : Option ASTNode × Parser :=
  match fuel with
  | 0 => (Option.none, p)
  | fuel + 1 =>
    if parserMatch p TokenType.MULTIPLY || parserMatch p TokenType.DIVIDE then
      let opc : Char := if p.currentToken.type = TokenType.MULTIPLY then '*' else '/'
      match parseFactor fuel (parserAdvance p) with
      | (Option.none, p) => (Option.none, p)
      | (Option.some right, p) =>
        if p.hasError then (Option.none, p)
        else parseTermOps fuel p (ASTNode.BinaryOp left opc right)
    else (Option.some left, p)

/-- `parse_factor`: numbers, identifiers, and parenthesized expressions.
IDENTIFIER tokens always carry text in the lexer, so the `getD`
fallback is unreachable (the C code passes the pointer to `strdup`). -/
def parseFactor (fuel : Nat) (p : Parser) : Option ASTNode × Parser :=
  if p.hasError then (Option.none, p)
  else
    match fuel with
    | 0 => (Option.none, p)
    | fuel + 1 =>
      if parserMatch p TokenType.NUMBER then
        (Option.some (ASTNode.Number p.currentToken.number), parserAdvance p)
      else if parserMatch p TokenType.IDENTIFIER then
        (Option.some (ASTNode.Identifier (p.currentToken.text.getD "")), parserAdvance p)
      else if parserMatch p TokenType.LPAREN then
        match parseExpression fuel (parserAdvance p) with
        | (Option.none, p) => (Option.none, p)
        | (Option.some expr, p) =>
          if p.hasError then (Option.none, p)
          else
            match parserConsume p TokenType.RPAREN "Expected \x27)\x27 after expression" with
            | (true, p) => (Option.some expr, p)
            | (false, p) => (Option.none, p)
      else (Option.none, parserError p "Expected number, identifier, or \x27(\x27")
end

/-- `parse_let_declaration`. -/
def parseLetDeclaration (fuel : Nat) (p : Parser) : Option ASTNode × Parser :=
  if p.hasError then (Option.none, p)
  else
    match fuel with
    | 0 => (Option.none, p)
    | fuel + 1 =>
      match parserConsume p TokenType.LET "Expected \x27let\x27 keyword" with
      | (false, p) => (Option.none, p)
      | (true, p) =>
        if !parserMatch p TokenType.IDENTIFIER then
          (Option.none, parserError p "Expected identifier after \x27let\x27")
        else
          let name := p.currentToken.text.getD ""
          let p := parserAdvance p
          match parserConsume p TokenType.ASSIGN "Expected \x27=\x27 after variable name" with
          | (false, p) => (Option.none, p)
          | (true, p) =>
            match parseExpression fuel p with
            | (Option.none, p) => (Option.none, p)
            | (Option.some value, p) =>
              if p.hasError then (Option.none, p)
              else
                match parserConsume p TokenType.SEMICOLON "Expected \x27;\x27 after let declaration" with
                | (false, p) => (Option.none, p)
                | (true, p) => (Option.some (ASTNode.LetDecl name value), p)

/-- `parse_print_call`. -/
def parsePrintCall (fuel : Nat) (p : Parser) : Option ASTNode × Parser :=
  if p.hasError then (Option.none, p)
  else
    match fuel with
    | 0 => (Option.none, p)
    | fuel + 1 =>
      match parserConsume p TokenType.IDENTIFIER "Expected \x27print\x27" with
      | (false, p) => (Option.none, p)
      | (true, p) =>
        match parserConsume p TokenType.LPAREN "Expected \x27(\x27 after \x27print\x27" with
        | (false, p) => (Option.none, p)
        | (true, p) =>
          match parseExpression fuel p with
          | (Option.none, p) => (Option.none, p)
          | (Option.some arg, p) =>
            if p.hasError then (Option.none, p)
            else
              match parserConsume p TokenType.RPAREN "Expected \x27)\x27 after print argument" with
              | (false, p) => (Option.none, p)
              | (true, p) =>
                if parserMatch p TokenType.SEMICOLON then
                  (Option.some (ASTNode.PrintCall arg), parserAdvance p)
                else (Option.some (ASTNode.PrintCall arg), p)

/-- `parse_statement`: let declaration, print call (recognized by the
identifier text "print"), or expression with optional semicolon. -/
def parseStatement (fuel : Nat) (p : Parser) : Option ASTNode × Parser :=
  if p.hasError then (Option.none, p)
  else
    match fuel with
    | 0 => (Option.none, p)
    | fuel + 1 =>
      if parserMatch p TokenType.LET then parseLetDeclaration fuel p
      else if parserMatch p TokenType.IDENTIFIER && p.currentToken.text = Option.some "print" then
        parsePrintCall fuel p
      else
        match parseExpression fuel p with
        | (Option.none, p) => (Option.none, p)
        | (Option.some expr, p) =>
          if p.hasError then (Option.none, p)
          else if parserMatch p TokenType.SEMICOLON then (Option.some expr, parserAdvance p)
          else (Option.some expr, p)

/-- The statement loop of `parser_parse`: runs until EOF or a recorded
error.  On a failed statement the C code destroys the partial program
node and returns NULL; with an error already recorded before entry the
loop body never runs and the (empty) program node is returned. -/
def parseLoop (fuel : Nat) (p : Parser) (stmts : ASTList) : Option ASTNode × Parser :=
  if parserMatch p TokenType.EOF || p.hasError then (Option.some (ASTNode.Program stmts), p)
  else
    match fuel with
    | 0 => (Option.none, p)
    | fuel + 1 =>
      match parseStatement fuel p with
      | (Option.none, p) =>
        if !p.hasError then (Option.none, parserError p "Failed to parse statement")
        else (Option.none, p)
      | (Option.some stmt, p) => parseLoop fuel p (stmts.snoc stmt)

/-- `parser_parse`: the top-level entry point. -/
def parserParse (fuel : Nat) (p : Parser) : Option ASTNode × Parser :=
  parseLoop fuel p ASTList.nil

/-- The lex-and-parse front half of main.c: build a lexer and parser
for the source text and run `parser_parse`. -/
def runSource (source : String) (fuel : Nat) : Option ASTNode × Parser :=
  parserParse fuel (parserCreate (lexerCreate source))

deriving instance DecidableEq for ASTNode

/-! ## Claim-support definitions -/

/-- Expression-grammar trees: exactly the shapes `parse_expression` can
produce (numbers, identifiers, binary operations), hence the only
shapes that can appear as the value of a parsed `let` declaration. -/
inductive PureExpr : ASTNode → Prop
  | num (v : ℚ) : PureExpr (ASTNode.Number v)
  | ident (n : String) : PureExpr (ASTNode.Identifier n)
  | bin (l : ASTNode) (op : Char) (r : ASTNode) :
      PureExpr l → PureExpr r → PureExpr (ASTNode.BinaryOp l op r)

/-- The if/else end-to-end scenario source of the specification. -/
def ifElseSource : String := "if (0) print(1) else print(2);"

/-- What the parser actually produces for `ifElseSource`: since the
lexer has no `if`/`else` keywords and the parser no conditional
production, the source parses as five ordinary statements. -/
def ifElseParsedProgram : ASTNode :=
  ASTNode.Program (ASTList.cons (ASTNode.Identifier "if")
    (ASTList.cons (ASTNode.Number 0)
      (ASTList.cons (ASTNode.PrintCall (ASTNode.Number 1))
        (ASTList.cons (ASTNode.Identifier "else")
          (ASTList.cons (ASTNode.PrintCall (ASTNode.Number 2)) ASTList.nil)))))

/-- The `+`-over-`*` expression produced for "2 + 3 * 4". -/
def mulAddExpr : ASTNode :=
  ASTNode.BinaryOp (ASTNode.Number 2) '+'
    (ASTNode.BinaryOp (ASTNode.Number 3) '*' (ASTNode.Number 4))

/-- A let declaration whose value expression stores a variable and then
divides by zero: constructible as an `ASTNode` value although no parse
produces it. -/
def letWithImpureValue : ASTNode :=
  ASTNode.LetDecl "x"
    (ASTNode.BinaryOp (ASTNode.LetDecl "y" (ASTNode.Number 1)) '/' (ASTNode.Number 0))

/-- Sixty-four consecutive digit characters. -/
def overlongDigitSource : String := String.mk (List.replicate 64 '1')

/-- A parser state with a recorded error. -/
def erroredParser : Parser :=
  { lexer := lexerCreate "", currentToken := createToken TokenType.EOF 1 1,
    lookaheadToken := createToken TokenType.EOF 1 1,
    hasError := true, errorMessage := "Parse error at line 1, column 1: boom" }

/-! ## Helper lemmas -/

/-- The body of `interpret` begins with `interpreter_clear_error`, so
the result never depends on the incoming error state. -/
theorem interpret_state_free (node : ASTNode) (env : Env) (st st' : ErrSt) :
    interpret node env st = interpret node env st' := by
  cases node <;> rfl

theorem interpGo_cons_free (a : ASTNode) (b : ASTList) (env : Env)
    (st st' : ErrSt) (last last' : ℚ) :
    interpGo (ASTList.cons a b) env st last = interpGo (ASTList.cons a b) env st' last' := by
  simp only [interpGo]
  rw [interpret_state_free a env st st']

/-- C10: every call of `interpret` with a node and an environment
unconditionally clears the process-wide error flag and message before
dispatching, so the result of the call never depends on the error state
in force when it was entered, and an error state recorded before the
call is erased by it: after the call, the error state reflects only
failures arising inside that call. -/
theorem interpret_clears_error_on_entry :
    (∀ (node : ASTNode) (env : Env) (st : ErrSt),
      interpret node env st = interpret node env clearErr) ∧
    (∀ (v : ℚ) (env : Env) (e : Bool) (m : String),
      interpret (ASTNode.Number v) env ⟨e, m⟩ = (v, env, clearErr, [])) := by
  constructor
  · intro node env st
    cases node <;> rfl
  · intro v env e m
    rfl

/-- C9: a `Program` node evaluates its statements in order against the
threaded environment; the first failing statement stops evaluation with
result 0 and that statement's error state, keeping the environment and
output already produced; otherwise the result is the last statement's
result, and an empty program yields 0 with no error and no output. -/
theorem program_statement_order (s : ASTNode) (rest : ASTList) (env : Env) (st : ErrSt) :
    (interpret (ASTNode.Program (ASTList.cons s rest)) env st =
      (let r := interpret s env clearErr
       if r.2.2.1.hasError then (0, r.2.1, r.2.2.1, r.2.2.2)
       else
         match rest with
         | ASTList.nil => r
         | ASTList.cons _ _ =>
           let r2 := interpret (ASTNode.Program rest) r.2.1 r.2.2.1
           (r2.1, r2.2.1, r2.2.2.1, r.2.2.2 ++ r2.2.2.2))) ∧
    interpret (ASTNode.Program ASTList.nil) env st = (0, env, clearErr, []) := by
  constructor
  · show interpGo (ASTList.cons s rest) env clearErr 0 = _
    rcases h : interpret s env clearErr with ⟨v, env1, st1, out1⟩
    simp only [interpGo, h]
    by_cases he : st1.hasError
    · simp [he]
    · simp only [he, Bool.false_eq_true, if_false, eq_self_iff_true]
      cases rest with
      | nil => simp [interpGo]
      | cons a b =>
        have hfree : interpGo (ASTList.cons a b) env1 st1 v
            = interpGo (ASTList.cons a b) env1 clearErr 0 :=
          interpGo_cons_free a b env1 st1 clearErr v 0
        rw [hfree]
        show _ = (let r2 := interpGo (ASTList.cons a b) env1 clearErr 0
          (r2.1, r2.2.1, r2.2.2.1, out1 ++ r2.2.2.2))
        rcases h2 : interpGo (ASTList.cons a b) env1 clearErr 0 with ⟨w, env2, st2, out2⟩
        simp
  · rfl

/-- C2: the parser has no comparison layer, so "1 < 2 < 3" does not
parse at all: the run returns no AST and records a parse error at the
first LESS token. -/
theorem chained_comparison_parse_fails :
    (runSource "1 < 2 < 3" 20).1 = Option.none ∧
    (runSource "1 < 2 < 3" 20).2.hasError = true ∧
    (runSource "1 < 2 < 3" 20).2.errorMessage =
      "Parse error at line 1, column 3: Expected number, identifier, or \x27(\x27" :=
  ⟨rfl, rfl, rfl⟩

/-- C4 counterexample: parsing "1 +" fails and records an error, and a
second sequential call of `parser_parse` is not a failure result: it
returns a success-looking empty Program node (with the error state and
message left intact). -/
theorem parser_reparse_after_error_cex :
    (runSource "1 +" 20).1 = Option.none ∧
    (runSource "1 +" 20).2.hasError = true ∧
    parserParse 20 (runSource "1 +" 20).2 =
      (Option.some (ASTNode.Program ASTList.nil), (runSource "1 +" 20).2) :=
  ⟨rfl, rfl, rfl⟩

/-- C4 amended: once the error flag is set, every internal parsing
production is a no-op returning NULL with the parser state (and so the
recorded message) unchanged; a second call of `parser_parse` is also a
no-op that leaves the state unchanged, but it returns an empty Program
node rather than a null result. -/
theorem parse_noop_after_error (fuel : Nat) (p : Parser) (h : p.hasError = true) :
    parseExpression fuel p = (Option.none, p) ∧
    parseTerm fuel p = (Option.none, p) ∧
    parseFactor fuel p = (Option.none, p) ∧
    parseStatement fuel p = (Option.none, p) ∧
    parseLetDeclaration fuel p = (Option.none, p) ∧
    parsePrintCall fuel p = (Option.none, p) ∧
    parserParse fuel p = (Option.some (ASTNode.Program ASTList.nil), p) := by
  refine ⟨?_, ?_, ?_, ?_, ?_, ?_, ?_⟩
  · rw [parseExpression.eq_def]; simp [h]
  · rw [parseTerm.eq_def]; simp [h]
  · rw [parseFactor.eq_def]; simp [h]
  · rw [parseStatement.eq_def]; simp [h]
  · rw [parseLetDeclaration.eq_def]; simp [h]
  · rw [parsePrintCall.eq_def]; simp [h]
  · rw [parserParse, parseLoop.eq_def]; simp [h]

theorem parse_noop_after_error_witness :
    erroredParser.hasError = true ∧
    parseExpression 7 erroredParser = (Option.none, erroredParser) ∧
    parseTerm 7 erroredParser = (Option.none, erroredParser) ∧
    parseFactor 7 erroredParser = (Option.none, erroredParser) ∧
    parseStatement 7 erroredParser = (Option.none, erroredParser) ∧
    parseLetDeclaration 7 erroredParser = (Option.none, erroredParser) ∧
    parsePrintCall 7 erroredParser = (Option.none, erroredParser) ∧
    parserParse 7 erroredParser = (Option.some (ASTNode.Program ASTList.nil), erroredParser) :=
  ⟨rfl, parse_noop_after_error 7 erroredParser rfl⟩

unseal Rat.add Rat.mul Rat.inv Rat.sub in
/-- C5: "2 + 3 * 4" parses with root + and right child *, and that
expression evaluates to 14 in every environment and error state. -/
theorem precedence_mul_binds_tighter (env : Env) (st : ErrSt) :
    (runSource "2 + 3 * 4" 20).1 =
      Option.some (ASTNode.Program (ASTList.cons mulAddExpr ASTList.nil)) ∧
    interpret mulAddExpr env st = (14, env, clearErr, []) :=
  ⟨by decide, rfl⟩

/-- C6: dividing by a right operand that evaluates to exactly zero is
rejected before the division with the division-by-zero error and result
0, for every left operand value and environment; a nonzero right
operand divides with no error. -/
theorem division_by_zero_guard (x q : ℚ) (env : Env) (st st' : ErrSt) :
    interpret (ASTNode.BinaryOp (ASTNode.Number x) '/' (ASTNode.Number 0)) env st
      = (0, env, setErr "Division by zero", []) ∧
    (q ≠ 0 → interpret (ASTNode.BinaryOp (ASTNode.Number x) '/' (ASTNode.Number q)) env st'
      = (x / q, env, clearErr, [])) := by
  constructor
  · rfl
  · intro hq
    simp [interpret, clearErr, hq]

theorem division_by_zero_guard_witness :
    interpret (ASTNode.BinaryOp (ASTNode.Number 6) '/' (ASTNode.Number 0)) [] clearErr
      = (0, [], setErr "Division by zero", []) ∧
    interpret (ASTNode.BinaryOp (ASTNode.Number 6) '/' (ASTNode.Number 3)) [] clearErr
      = (6 / 3, [], clearErr, []) :=
  ⟨(division_by_zero_guard 6 3 [] clearErr clearErr).1,
   (division_by_zero_guard 6 3 [] clearErr clearErr).2 (by norm_num)⟩

/-- C7: `env_set` then `env_get` round-trips the stored value exactly,
and `env_set` on an already-bound name updates in place, leaving the
entry count unchanged. -/
theorem env_set_get_roundtrip (env : Env) (name : String) (v : ℚ) :
    envGet (envSet env name v) name = Option.some v ∧
    ((envGet env name).isSome = true → (envSet env name v).length = env.length) := by
  induction env with
  | nil => simp [envSet, envGet]
  | cons hd tl ih =>
    obtain ⟨n, w⟩ := hd
    by_cases hn : n = name
    · subst hn
      simp [envSet, envGet]
    · constructor
      · simpa [envSet, envGet, hn] using ih.1
      · intro hs
        have : (envGet tl name).isSome = true := by
          simpa [envGet, hn] using hs
        simp [envSet, envGet, hn, ih.2 this]

theorem env_set_get_roundtrip_witness :
    envGet (envSet [("a", (1 : ℚ))] "a" 2) "a" = Option.some 2 ∧
    (envSet [("a", (1 : ℚ))] "a" 2).length = 1 :=
  ⟨(env_set_get_roundtrip [("a", 1)] "a" 2).1,
   (env_set_get_roundtrip [("a", 1)] "a" 2).2 (by decide)⟩

unseal Rat.add Rat.mul Rat.inv Rat.sub in
/-- C1: the captured pipeline does not implement if/else.  The source
"if (0) print(1) else print(2);" lexes `if` and `else` as plain
identifiers and parses as five ordinary statements (no IfStmt node);
evaluating that program prints nothing and fails at once with
"Undefined variable: if".  Moreover an IfStmt node with condition 0 and
no else branch does not evaluate as a no-op: the evaluator rejects it
as an unsupported node type. -/
theorem if_else_pipeline_fails :
    (runSource ifElseSource 20).1 = Option.some ifElseParsedProgram ∧
    (runSource ifElseSource 20).2.hasError = false ∧
    interpret ifElseParsedProgram [] clearErr
      = (0, [], setErr "Undefined variable: if", []) ∧
    (∀ (thn : ASTNode) (env : Env) (st : ErrSt),
      interpret (ASTNode.IfStmt (ASTNode.Number 0) thn ASTOpt.none) env st
        = (0, env, setErr "Unsupported AST node type in interpreter core", [])) :=
  ⟨by decide, rfl, rfl, fun _ _ _ => rfl⟩

/-- Unfolding equation for BinaryOp evaluation. -/
theorem interpret_binop (l : ASTNode) (op : Char) (r : ASTNode) (env : Env) (st : ErrSt) :
    interpret (ASTNode.BinaryOp l op r) env st =
      (match interpret l env clearErr with
       | (leftVal, env1, st1, out1) =>
         if st1.hasError then (0, env1, st1, out1)
         else
           match interpret r env1 st1 with
           | (rightVal, env2, st2, out2) =>
             if st2.hasError then (0, env2, st2, out1 ++ out2)
             else if op = '+' then (leftVal + rightVal, env2, st2, out1 ++ out2)
             else if op = '-' then (leftVal - rightVal, env2, st2, out1 ++ out2)
             else if op = '*' then (leftVal * rightVal, env2, st2, out1 ++ out2)
             else if op = '/' then
               if rightVal = 0 then (0, env2, setErr "Division by zero", out1 ++ out2)
               else (leftVal / rightVal, env2, st2, out1 ++ out2)
             else (0, env2, setErr ("Unknown binary operator: " ++ op.toString), out1 ++ out2)) :=
  rfl

/-- Unfolding equation for Identifier evaluation. -/
theorem interpret_ident (n : String) (env : Env) (st : ErrSt) :
    interpret (ASTNode.Identifier n) env st =
      (match envGet env n with
       | Option.some v => (v, env, clearErr, [])
       | Option.none => (0, env, setErr ("Undefined variable: " ++ n), [])) :=
  rfl

/-- Unfolding equation for LetDecl evaluation. -/
theorem interpret_letdecl (name : String) (value : ASTNode) (env : Env) (st : ErrSt) :
    interpret (ASTNode.LetDecl name value) env st =
      (match interpret value env clearErr with
       | (v, env1, st1, out1) =>
         if st1.hasError then (0, env1, st1, out1)
         else (v, envSet env1 name v, st1, out1)) :=
  rfl

/-- Expression-grammar trees neither touch the environment nor print. -/
theorem pureExpr_preserves (e : ASTNode) (hp : PureExpr e) (env : Env) (st : ErrSt) :
    (interpret e env st).2.1 = env ∧ (interpret e env st).2.2.2 = [] := by
  induction hp generalizing env st with
  | num v => exact ⟨rfl, rfl⟩
  | ident n =>
    rw [interpret_ident]
    cases envGet env n <;> exact ⟨rfl, rfl⟩
  | bin l op r hl hr ihl ihr =>
    rcases h1 : interpret l env clearErr with ⟨lv, env1, st1, out1⟩
    have e1 : env1 = env := by have := (ihl env clearErr).1; rwa [h1] at this
    have o1 : out1 = [] := by have := (ihl env clearErr).2; rwa [h1] at this
    rcases h2 : interpret r env1 st1 with ⟨rv, env2, st2, out2⟩
    have e2 : env2 = env1 := by have := (ihr env1 st1).1; rwa [h2] at this
    have o2 : out2 = [] := by have := (ihr env1 st1).2; rwa [h2] at this
    rw [interpret_binop]
    simp only [h1, h2]
    subst e1 e2 o1 o2
    refine ⟨?_, ?_⟩ <;> (repeat' split) <;> rfl

/-- C8 counterexample: a LetDecl whose value expression both stores a
variable and then fails does not leave the environment unmodified: the
store performed inside the value expression persists.  (No parse can
produce such a value expression, but the evaluator accepts it.) -/
theorem let_decl_failing_value_cex :
    interpret letWithImpureValue [] clearErr
      = (0, [("y", 1)], setErr "Division by zero", []) ∧
    ([("y", (1 : ℚ))] : Env) ≠ ([] : Env) :=
  ⟨rfl, by decide⟩

/-- C8 amended: for a LetDecl whose value is an expression-grammar tree
(the only shape the parser produces), a failing value expression leaves
the environment unmodified, produces no output, and propagates the
error with result 0 ; a succeeding value expression stores the value
under the declared name, inserting or overwriting, and returns it. -/
theorem let_decl_env_effects (name : String) (value : ASTNode) (env : Env) (st : ErrSt)
    (hp : PureExpr value) (v : ℚ) (env1 : Env) (st1 : ErrSt) (out1 : List ℚ)
    (heval : interpret value env clearErr = (v, env1, st1, out1)) :
    (st1.hasError = true →
      interpret (ASTNode.LetDecl name value) env st = (0, env, st1, []) ∧ env1 = env ∧ out1 = []) ∧
    (st1.hasError = false →
      interpret (ASTNode.LetDecl name value) env st = (v, envSet env name v, st1, [])) := by
  have e1 : env1 = env := by
    have := (pureExpr_preserves value hp env clearErr).1; rwa [heval] at this
  have o1 : out1 = [] := by
    have := (pureExpr_preserves value hp env clearErr).2; rwa [heval] at this
  subst e1 o1
  rw [interpret_letdecl]
  simp only [heval]
  constructor
  · intro he; simp [he]
  · intro he; simp [he]

theorem let_decl_env_effects_witness :
    interpret (ASTNode.Identifier "nope") [] clearErr
      = (0, [], setErr "Undefined variable: nope", []) ∧
    (setErr "Undefined variable: nope").hasError = true ∧
    interpret (ASTNode.LetDecl "x" (ASTNode.Identifier "nope")) [] clearErr
      = (0, [], setErr "Undefined variable: nope", []) :=
  ⟨rfl, rfl,
   ((let_decl_env_effects "x" (ASTNode.Identifier "nope") [] clearErr
     (PureExpr.ident "nope") 0 [] (setErr "Undefined variable: nope") [] rfl).1 rfl).1⟩

/-- Facts about digit characters needed by the lexer lemmas. -/
theorem digit_char_facts (c : Char) (h : isdigitC c = true) :
    c ≠ '\x00' ∧ c ≠ '\n' ∧ c ≠ '.' ∧ isspaceC c = false := by
  refine ⟨?_, ?_, ?_, ?_⟩
  · intro heq; rw [heq] at h; exact absurd h (by decide)
  · intro heq; rw [heq] at h; exact absurd h (by decide)
  · intro heq; rw [heq] at h; exact absurd h (by decide)
  · by_contra hs
    rw [Bool.not_eq_false] at hs
    simp only [isspaceC, Bool.or_eq_true, decide_eq_true_eq] at hs
    rcases hs with ((((rfl | rfl) | rfl) | rfl) | rfl) | rfl <;> exact absurd h (by decide)

theorem currentChar_lt (l : Lexer) (h : l.position < l.source.length) :
    l.currentChar = l.source.get ⟨l.position, h⟩ := by
  simp [Lexer.currentChar, h]

theorem lexerAdvance_digit (l : Lexer) (h : l.position < l.source.length)
    (hd : isdigitC (l.source.get ⟨l.position, h⟩) = true) :
    lexerAdvance l = { l with position := l.position + 1, column := l.column + 1 } := by
  rw [lexerAdvance, if_pos h, currentChar_lt l h, if_neg (digit_char_facts _ hd).2.1]

/-- Running the digit loop over an all-digit region consumes exactly
its budget, appending the consumed characters to the buffer. -/
theorem readDigits_run (n : Nat) (l : Lexer) (buf : List Char)
    (hall : ∀ (i : Nat) (hi : i < l.source.length),
      l.position ≤ i → isdigitC (l.source.get ⟨i, hi⟩) = true)
    (hn : l.position + n ≤ l.source.length) :
    readDigits n l buf =
      (buf ++ (l.source.drop l.position).take n,
       { l with position := l.position + n, column := l.column + n }) := by
  induction n generalizing l buf with
  | zero =>
    simp only [readDigits, List.take_zero, List.append_nil, Nat.add_zero]
  | succ n ih =>
    have hpos : l.position < l.source.length := by omega
    have hd := hall l.position hpos le_rfl
    have hcur : l.currentChar = l.source.get ⟨l.position, hpos⟩ := currentChar_lt l hpos
    have hne : l.currentChar ≠ '\x00' := by rw [hcur]; exact (digit_char_facts _ hd).1
    have hdig : isdigitC l.currentChar = true := by rw [hcur]; exact hd
    rw [readDigits, if_pos (by simp [hne, hdig])]
    rw [lexerAdvance_digit l hpos hd]
    have hall' : ∀ (i : Nat)
        (hi : i < ({ l with position := l.position + 1, column := l.column + 1 } : Lexer).source.length),
        ({ l with position := l.position + 1, column := l.column + 1 } : Lexer).position ≤ i →
        isdigitC (({ l with position := l.position + 1, column := l.column + 1 } : Lexer).source.get ⟨i, hi⟩) = true := by
      intro i hi hle
      have hle' : l.position + 1 ≤ i := hle
      exact hall i hi (by omega)
    have hn' : ({ l with position := l.position + 1, column := l.column + 1 } : Lexer).position + n
        ≤ ({ l with position := l.position + 1, column := l.column + 1 } : Lexer).source.length := by
      have : l.position + 1 + n ≤ l.source.length := by omega
      exact this
    rw [ih _ _ hall' hn']
    rw [hcur]
    congr 1
    · show buf ++ [l.source.get ⟨l.position, hpos⟩] ++ (l.source.drop (l.position + 1)).take n
        = buf ++ (l.source.drop l.position).take (n + 1)
      rw [List.drop_eq_getElem_cons hpos, List.take_succ_cons, List.append_assoc,
        List.singleton_append, List.get_eq_getElem]
    · show ({ l with position := l.position + 1 + n, column := l.column + 1 + n } : Lexer)
        = { l with position := l.position + (n + 1), column := l.column + (n + 1) }
      simp only [Lexer.mk.injEq, and_true, true_and]
      omega

theorem skipWS_nop (n : Nat) (l : Lexer) (h : isspaceC l.currentChar = false) :
    skipWS n l = l := by
  cases n with
  | zero => rfl
  | succ n => rw [skipWS, if_neg (by simp [h])]

theorem lexerNextToken_digit (l : Lexer) (h : isdigitC l.currentChar = true) :
    lexerNextToken l = lexerReadNumber l := by
  have hws : lexerSkipWhitespace l = l :=
    skipWS_nop _ l (by
      by_contra hs
      rw [Bool.not_eq_false] at hs
      have := (digit_char_facts _ h).2.2.2
      rw [this] at hs
      exact Bool.false_ne_true hs)
  rw [lexerNextToken, hws, if_neg (digit_char_facts _ h).1, if_pos h]

theorem lexerReadNumber_type (l : Lexer) : (lexerReadNumber l).1.type = TokenType.NUMBER := rfl

/-- C3 amended: on a digit run longer than 63 characters the NUMBER
token captures exactly the first 63 characters (the lexer stops at
position 63 and the token value is the value of those 63 digits), and
the excess characters are not lost: the very next token is another
NUMBER lexed from the excess digits, not EOF. -/
theorem lexer_overlong_number_splits (ds : List Char)
    (hall : ∀ c ∈ ds, isdigitC c = true) (hlen : 63 < ds.length) :
    (lexerNextToken (lexerCreate (String.mk ds))).1.type = TokenType.NUMBER ∧
    (lexerNextToken (lexerCreate (String.mk ds))).1.number = atofQ (ds.take 63) ∧
    (lexerNextToken (lexerCreate (String.mk ds))).2.position = 63 ∧
    (lexerNextToken ((lexerNextToken (lexerCreate (String.mk ds))).2)).1.type
      = TokenType.NUMBER := by
  have l0eq : lexerCreate (String.mk ds) = (⟨ds, 0, 1, 1⟩ : Lexer) := rfl
  have hall' : ∀ (i : Nat) (hi : i < (⟨ds, 0, 1, 1⟩ : Lexer).source.length),
      (⟨ds, 0, 1, 1⟩ : Lexer).position ≤ i →
      isdigitC ((⟨ds, 0, 1, 1⟩ : Lexer).source.get ⟨i, hi⟩) = true := by
    intro i hi _
    exact hall _ (List.get_mem ds i hi)
  have h63 : (63 : Nat) < ds.length := hlen
  have hrd : readDigits 63 (⟨ds, 0, 1, 1⟩ : Lexer) []
      = (ds.take 63, (⟨ds, 63, 1, 64⟩ : Lexer)) := by
    have h := readDigits_run 63 (⟨ds, 0, 1, 1⟩ : Lexer) [] hall' (by simpa using by omega)
    simpa using h
  have hcur1 : (⟨ds, 63, 1, 64⟩ : Lexer).currentChar = ds.get ⟨63, h63⟩ :=
    currentChar_lt _ h63
  have hd63 : isdigitC (ds.get ⟨63, h63⟩) = true := hall _ (List.get_mem ds 63 h63)
  have hRN : lexerReadNumber (⟨ds, 0, 1, 1⟩ : Lexer)
      = (createNumberToken (atofQ (ds.take 63)) 1 1, (⟨ds, 63, 1, 64⟩ : Lexer)) := by
    have hdot : ds.get ⟨63, h63⟩ ≠ '.' := (digit_char_facts _ hd63).2.2.1
    rw [lexerReadNumber, hrd]
    rw [if_neg ?hcond]
    case hcond =>
      simp only [hcur1, Bool.and_eq_true, decide_eq_true_eq, not_and]
      intro h1 _
      exact absurd h1 hdot
  have hd0 : isdigitC ((⟨ds, 0, 1, 1⟩ : Lexer)).currentChar = true := by
    rw [currentChar_lt _ (show (0 : Nat) < ds.length by omega)]
    exact hall _ (List.get_mem ds 0 (by omega))
  have hNT : lexerNextToken (lexerCreate (String.mk ds))
      = (createNumberToken (atofQ (ds.take 63)) 1 1, (⟨ds, 63, 1, 64⟩ : Lexer)) := by
    rw [l0eq, lexerNextToken_digit _ hd0, hRN]
  have hd1 : isdigitC ((⟨ds, 63, 1, 64⟩ : Lexer)).currentChar = true := by
    rw [hcur1]; exact hd63
  refine ⟨by rw [hNT]; rfl, by rw [hNT]; rfl, by rw [hNT], ?_⟩
  rw [hNT]
  show (lexerNextToken (⟨ds, 63, 1, 64⟩ : Lexer)).1.type = TokenType.NUMBER
  rw [lexerNextToken_digit _ hd1]
  exact lexerReadNumber_type _

theorem lexer_overlong_number_splits_witness :
    (lexerNextToken (lexerCreate (String.mk (List.replicate 64 '1')))).1.type = TokenType.NUMBER ∧
    (lexerNextToken (lexerCreate (String.mk (List.replicate 64 '1')))).1.number
      = atofQ ((List.replicate 64 '1').take 63) ∧
    (lexerNextToken (lexerCreate (String.mk (List.replicate 64 '1')))).2.position = 63 ∧
    (lexerNextToken ((lexerNextToken (lexerCreate (String.mk (List.replicate 64 '1')))).2)).1.type
      = TokenType.NUMBER :=
  lexer_overlong_number_splits (List.replicate 64 '1') (by decide) (by decide)

unseal Rat.add Rat.mul Rat.inv Rat.sub in
/-- C3 counterexample: on sixty-four consecutive 1 digits the first
NUMBER token stops after 63 characters, and the excess digit is not
lost: the next lexer call returns a further NUMBER token (value 1)
where the claim requires the stream to continue as if the excess were
absent (EOF here). -/
theorem overlong_number_excess_not_lost_cex :
    (lexerNextToken (lexerCreate overlongDigitSource)).2.position = 63 ∧
    (lexerNextToken ((lexerNextToken (lexerCreate overlongDigitSource)).2)).1.type
      = TokenType.NUMBER ∧
    (lexerNextToken ((lexerNextToken (lexerCreate overlongDigitSource)).2)).1.number = 1 ∧
    (lexerNextToken ((lexerNextToken (lexerCreate overlongDigitSource)).2)).1.type
      ≠ TokenType.EOF :=
  ⟨by decide, by decide, by decide, by decide⟩
